import Mathlib

/-
Verification development for the backend process/IPC bridge of this
repository, together with the IPU metrics source and the transport
security toggle.  Each definition is a shallow embedding of the
corresponding Python code:

  - src/wandb/sdk/backend/backend.py      (Backend, BackendThread)
  - src/wandb/sdk/system/assets/ipu.py    (IPUStats)
  - src/tests/unit_tests/test_ssl.py      (expected ssl_disabled behaviour)

Python dictionaries are modelled as association lists with Python dict
update semantics (assignment replaces the value of an existing key in
place, otherwise appends; deletion removes the key).  Numeric values are
modelled as exact rationals.  Fallible code returns Except; the states
an exception can leave behind are carried in the error value, since
Python mutates attributes in place before an exception escapes.
-/

/-! ## Python dictionaries as association lists -/

/-- Lookup in a Python dict: the value of the first pair whose key matches. -/
def dget {α : Type} : List (String × α) → String → Option α
  | [], _ => none
  | p :: ps, k => if p.1 == k then some p.2 else dget ps k

/-- Membership test, Python `key in d`. -/
def dcontains {α : Type} (s : List (String × α)) (k : String) : Bool :=
  (dget s k).isSome

/-- Python dict assignment `d[k] = v`: replace in place, else append. -/
def dset {α : Type} : List (String × α) → String → α → List (String × α)
  | [], k, v => [(k, v)]
  | p :: ps, k, v => if p.1 == k then (k, v) :: ps else p :: dset ps k v

/-- Python dict deletion `del d[k]` (identity when the key is absent,
matching the guarded delete in the source). -/
def ddel {α : Type} (s : List (String × α)) (k : String) : List (String × α) :=
  s.filter (fun p => p.1 != k)

/-- Python `d.keys()` in insertion order. -/
def dkeys {α : Type} (s : List (String × α)) : List String :=
  s.map Prod.fst

/-! ## Configuration values (settings dict entries) -/

/-- A settings value: an int (log levels), a string (start_method), None,
or an opaque unpicklable object such as the early logger handle. -/
inductive SVal
  | vInt : Int → SVal
  | vStr : String → SVal
  | vNone : SVal
  | vObj : Nat → SVal
deriving DecidableEq, Repr

/-- The settings mapping passed across the process boundary. -/
abbrev Settings := List (String × SVal)

/-- Python `log_level or logging.DEBUG` (backend.py line 59): None and the
falsy level 0 both fall back to logging.DEBUG = 10. -/
def pyLevelOrDebug : Option Int → Int
  | none => 10
  | some l => if l = 0 then 10 else l

/-- Lines 58 to 65 of backend.py: copy the settings, force the _log_level
entry, strip the _early_logger entry. -/
def prepareSettings (settings0 : Option Settings) (log_level : Option Int) : Settings :=
  let s := settings0.getD []
  let s := dset s "_log_level" (SVal.vInt (pyLevelOrDebug log_level))
  ddel s "_early_logger"

/-! ## The entry module and the execution context shim -/

/-- The interpreter entry module sys.modules["__main__"]: the outer Option
of spec is whether a non-None __spec__ attribute exists, the inner Option
is its name attribute; file is the __file__ attribute. -/
structure MainModule where
  spec : Option (Option String)
  file : Option String
deriving DecidableEq, Repr

/-- Lines 85 to 89 of backend.py: the spec name of the entry module, when
a truthy __spec__ object with a name attribute exists. -/
def mainModName (m : MainModule) : Option String :=
  match m.spec with
  | some n => n
  | none => none

/-- The bundled placeholder entry file
os.path.join(os.path.dirname(wandb.__file__), "mpmain", "__main__.py"),
modelled as an abstract path constant. -/
def mpmainPath : String := "wandb/mpmain/__main__.py"

/-- Python truthiness of an optional string: None and the empty string
are falsy. -/
def optStrTruthy : Option String → Bool
  | none => false
  | some s => s != ""

/-- Lines 82 to 98 of backend.py: rewrite the entry module identity before
the start call; returns the patched module and the saved originals
(save_mod_name, save_mod_path). -/
def shimPatch (m : MainModule) : MainModule × Option String × Option String :=
  match mainModName m with
  | some nm => ({ m with spec := some (some "wandb.mpmain") }, some nm, none)
  | none =>
    match m.file with
    | some p => ({ m with file := some mpmainPath }, none, some p)
    | none => (m, none, none)

/-- Lines 109 to 112 of backend.py: undo the temporary changes.  Note the
guards are Python truthiness tests on the saved values, not None tests. -/
def shimRestore (m : MainModule) (save_mod_name save_mod_path : Option String) : MainModule :=
  if optStrTruthy save_mod_name then { m with spec := some save_mod_name }
  else if optStrTruthy save_mod_path then { m with file := save_mod_path }
  else m

/-! ## Workers (multiprocessing.Process or BackendThread) -/

/-- A worker object.  BackendThread (lines 22 to 33) sets daemon True and
pid 0 in its constructor; multiprocessing.Process has pid None until
started.  kwSettings, kwRecordQ and kwResultQ are the kwargs handed to
the wandb_internal target. -/
structure Worker where
  isThread : Bool
  daemon : Bool
  name : String
  started : Bool
  pid : Option Nat
  kwSettings : Settings
  kwRecordQ : Nat
  kwResultQ : Nat
deriving DecidableEq, Repr

/-- Constructing multiprocessing.Process(target, kwargs). -/
def mkProcess (s : Settings) (rq rsq : Nat) : Worker :=
  { isThread := false, daemon := false, name := "", started := false,
    pid := none, kwSettings := s, kwRecordQ := rq, kwResultQ := rsq }

/-- Constructing BackendThread(target, kwargs): daemon True, pid 0. -/
def mkBackendThread (s : Settings) (rq rsq : Nat) : Worker :=
  { isThread := true, daemon := true, name := "", started := false,
    pid := some 0, kwSettings := s, kwRecordQ := rq, kwResultQ := rsq }

/-- Lines 69 to 79 of backend.py: pick the process class from the
start_method entry of the prepared settings, construct the worker with
the queue pair and settings, and set its name. -/
def buildWorker (s : Settings) (rq rsq : Nat) : Worker :=
  let w :=
    if dget s "start_method" ≠ some (SVal.vStr "thread") then mkProcess s rq rsq
    else mkBackendThread s rq rsq
  { w with name := "wandb_internal" }

/-- Starting the worker (line 102): a separate process receives a pid from
the operating system; a BackendThread keeps pid 0. -/
def startWorker (w : Worker) (osPid : Nat) : Worker :=
  if w.isThread then { w with started := true }
  else { w with started := true, pid := some osPid }

/-- threading.Thread has no terminate method, so only process workers can
be terminated; Backend.abort on a thread worker raises AttributeError. -/
def Worker.canTerminate (w : Worker) : Bool :=
  !w.isThread

/-! ## The Backend handle -/

/-- The Backend handle (backend.py lines 36 to 44): the done flag, the
two queues (queue identities once allocated), the worker object, the
BackendSender sender interface (bound to the queue pair) and the
recorded internal pid. -/
structure Backend where
  done : Bool
  record_q : Option Nat
  result_q : Option Nat
  wandb_process : Option Worker
  interface : Option (Nat × Nat)
  internal_pid : Option Nat
deriving DecidableEq, Repr

/-- Backend.__init__: done False, everything else unset. -/
def Backend.init : Backend :=
  { done := false, record_q := none, result_q := none,
    wandb_process := none, interface := none, internal_pid := none }

/-- A point where ensure_launched can fail: queue allocation, worker
construction, or the start call itself. -/
inductive LaunchFault
  | nofault
  | recordQAlloc
  | resultQAlloc
  | processCreate
  | startFail
deriving DecidableEq, Repr

/-- Backend.ensure_launched (lines 49 to 116).  The steps in source
order: prepare the settings, allocate the record queue then the result
queue (assigned to the handle as soon as each allocation returns),
construct the worker, patch the entry module, start the worker, record
its pid, undo the entry module patch, and finally build the sender
interface.  A fault at any step raises: the error value carries the
handle and entry module exactly as the exception leaves them, since the
body has no try or finally. -/
def Backend.ensure_launched (b : Backend) (m : MainModule)
    (settings0 : Option Settings) (log_level : Option Int)
    (osPid : Nat) (fault : LaunchFault) :
    Except (Backend × MainModule) (Backend × MainModule) :=
  let s := prepareSettings settings0 log_level
  if fault = LaunchFault.recordQAlloc then Except.error (b, m)
  else
    let b := { b with record_q := some 0 }
    if fault = LaunchFault.resultQAlloc then Except.error (b, m)
    else
      let b := { b with result_q := some 1 }
      if fault = LaunchFault.processCreate then Except.error (b, m)
      else
        let w := buildWorker s 0 1
        let b := { b with wandb_process := some w }
        let pm := shimPatch m
        if fault = LaunchFault.startFail then Except.error (b, pm.1)
        else
          let w := startWorker w osPid
          let b := { b with wandb_process := some w, internal_pid := w.pid }
          let m2 := shimRestore pm.1 pm.2.1 pm.2.2
          Except.ok ({ b with interface := some (0, 1) }, m2)

/-- The launched state an ensure_launched call returns, when it returns. -/
def launchOk : Except (Backend × MainModule) (Backend × MainModule) → Option (Backend × MainModule)
  | Except.ok r => some r
  | Except.error _ => none

/-- The state a failing ensure_launched call leaves behind. -/
def launchError : Except (Backend × MainModule) (Backend × MainModule) → Option (Backend × MainModule)
  | Except.error r => some r
  | Except.ok _ => none

/-! ## Teardown: cleanup and abort -/

/-- The observable teardown operations of cleanup and abort, in the order
the source performs them. -/
inductive TeardownEv
  | joinInterface
  | joinWorker
  | closeRecordQ
  | closeResultQ
  | terminateWorker
deriving DecidableEq, Repr

/-- True exactly for the queue close operations. -/
def isQueueClose : TeardownEv → Bool
  | TeardownEv.closeRecordQ => true
  | TeardownEv.closeResultQ => true
  | _ => false

/-- Backend.cleanup (lines 130 to 138): return early when done is already
set, else set it and join the interface, join the worker, close the
record queue, close the result queue, in that order. -/
def Backend.cleanup (b : Backend) : Backend × List TeardownEv :=
  if b.done then (b, [])
  else ({ b with done := true },
        [TeardownEv.joinInterface, TeardownEv.joinWorker,
         TeardownEv.closeRecordQ, TeardownEv.closeResultQ])

/-- Backend.abort (lines 126 to 128): terminate the worker, then run
cleanup.  The terminate call raises AttributeError when the worker is a
BackendThread (threading.Thread has no terminate) or when no worker was
ever launched; in that case cleanup is not reached.  The third component
is the escaping exception, if any. -/
def Backend.abort (b : Backend) : Backend × List TeardownEv × Option String :=
  match b.wandb_process with
  | some w =>
    if w.canTerminate then
      let r := Backend.cleanup b
      (r.1, TeardownEv.terminateWorker :: r.2, none)
    else (b, [], some "AttributeError")
  | none => (b, [], some "AttributeError")

/-- One shutdown request: a cleanup call or an abort call. -/
inductive TeardownCall
  | callCleanup
  | callAbort
deriving DecidableEq, Repr

/-- One call of the given kind against the handle; exceptions escape to
the caller but leave the recorded operations and the handle state. -/
def runCall : TeardownCall → Backend → Backend × List TeardownEv
  | TeardownCall.callCleanup, b => Backend.cleanup b
  | TeardownCall.callAbort, b => ((Backend.abort b).1, (Backend.abort b).2.1)

/-- A sequence of shutdown requests run one after the other, collecting
every teardown operation performed. -/
def runCalls : List TeardownCall → Backend → Backend × List TeardownEv
  | [], b => (b, [])
  | c :: cs, b =>
    let r := runCall c b
    let r2 := runCalls cs r.1
    (r2.1, r.2 ++ r2.2)

/-! ## The IPU metrics source (src/wandb/sdk/system/assets/ipu.py)

Numeric metric values are modelled as exact rationals; a device is the
dict of string metrics the vendor library reports for it. -/

/-- One buffered observation: a dict from metric name to numeric value. -/
abbrev Sample := List (String × ℚ)

/-- One device as reported by gcipuinfo: a dict of string fields. -/
abbrev Device := List (String × String)

/-- The mutable state of an IPUStats source: the pid it filters on, the
deque of buffered samples and the set of device ids already reported. -/
structure IPUStats where
  pid : Int
  samples : List Sample
  devicesCalled : List String
deriving DecidableEq, Repr

/-- The variable_metric_keys set of IPUStats. -/
def variable_metric_keys : List String :=
  ["average board temp", "average die temp", "clock", "ipu power",
   "ipu utilisation", "ipu utilisation (session)"]

/-- The metric_suffixes dict of IPUStats.parse_metric, in insertion
order. -/
def metric_suffixes : List (String × String) :=
  [("temp", "C"), ("clock", "MHz"), ("power", "W"), ("utilisation", "%"),
   ("utilisation (session)", "%"), ("speed", "GT/s")]

/-- The value of a nonempty string of decimal digits. -/
def digitsVal? (cs : List Char) : Option Nat :=
  if cs.isEmpty then none
  else
    cs.foldl (fun acc c =>
      match acc with
      | none => none
      | some n => if c.isDigit then some (n * 10 + (c.toNat - 48)) else none)
      (some 0)

/-- Python float(string) restricted to plain decimal literals with an
optional sign and an optional fraction part; anything else fails with
ValueError, modelled as none. -/
def parseDecimal? (s : String) : Option ℚ :=
  let core : String → Option ℚ := fun t =>
    match t.split (fun c => c == '.') with
    | [ip] => (digitsVal? ip.toList).map (fun n => (n : ℚ))
    | [ip, fp] =>
      if ip.isEmpty && fp.isEmpty then none
      else
        match (if ip.isEmpty then some 0 else digitsVal? ip.toList),
              (if fp.isEmpty then some 0 else digitsVal? fp.toList) with
        | some a, some b => some ((a : ℚ) + (b : ℚ) / ((10 : ℚ) ^ fp.length))
        | _, _ => none
    | _ => none
  if s.startsWith "-" then (core (s.drop 1)).map (fun q => -q)
  else if s.startsWith "+" then core (s.drop 1)
  else core s

/-- Python int(string): digits with an optional sign, else ValueError. -/
def pyInt? (s : String) : Option Int :=
  s.toInt?

/-- IPUStats.parse_metric (lines 61 to 83): every matching suffix in turn
strips the value and renames the key, then the value is parsed as a
number; the int versus float distinction of the source changes no
numeric value and is dropped. -/
def IPUStats.parse_metric (key value : String) : Option (String × ℚ) :=
  let kv := metric_suffixes.foldl
    (fun (kv : String × String) (ms : String × String) =>
      if kv.1.endsWith ms.1 && kv.2.endsWith ms.2 then
        (kv.1 ++ " (" ++ ms.2 ++ ")", kv.2.dropRight ms.2.length)
      else kv)
    (key, value)
  match parseDecimal? kv.2 with
  | some q => some (kv.1, q)
  | none => none

/-- Python str(device_id) as used in the metric name format, where the
device id may be None. -/
def pyFormatId : Option String → String
  | some i => i
  | none => "None"

/-- The inner loop over the metrics of one matching device (lines 102 to
110): log a metric when this is the first call for the device or the key
is in variable_metric_keys, parse it, and store it under
ipu.device_id.key. -/
def processDeviceMetrics (deviceId : Option String) (initialCall : Bool)
    (device : Device) (stats : Sample) : Sample :=
  device.foldl
    (fun stats kv =>
      if initialCall || variable_metric_keys.contains kv.1 then
        match IPUStats.parse_metric kv.1 kv.2 with
        | some pv => dset stats ("ipu." ++ pyFormatId deviceId ++ "." ++ pv.1) pv.2
        | none => stats
      else stats)
    stats

/-- The loop over devices (lines 90 to 110).  A device whose user process
id is absent or differs from the monitored pid is skipped; a user
process id that int() cannot parse raises ValueError, carried as an
error together with the state as mutated so far (devicesCalled grows in
place before the samples deque is ever touched). -/
def sampleDevices : List Device → IPUStats → Sample →
    Except (IPUStats × String) (IPUStats × Sample)
  | [], st, stats => Except.ok (st, stats)
  | d :: ds, st, stats =>
    match dget d "user process id" with
    | none => sampleDevices ds st stats
    | some pidStr =>
      match pyInt? pidStr with
      | none => Except.error (st, "invalid literal for int: " ++ pidStr)
      | some p =>
        if p ≠ st.pid then sampleDevices ds st stats
        else
          let deviceId := dget d "id"
          let initialCall :=
            match deviceId with
            | some i => !st.devicesCalled.contains i
            | none => true
          let st2 :=
            match deviceId with
            | some i =>
              { st with devicesCalled :=
                  if st.devicesCalled.contains i then st.devicesCalled
                  else st.devicesCalled ++ [i] }
            | none => st
          sampleDevices ds st2 (processDeviceMetrics deviceId initialCall d stats)

/-- The state a device loop ends in, whether it returns or raises. -/
def devState : Except (IPUStats × String) (IPUStats × Sample) → IPUStats
  | Except.ok r => r.1
  | Except.error r => r.1

/-- IPUStats.sample (lines 85 to 115): query the devices, walk them, and
append the collected stats to the deque; every exception of the body,
whether from the device query itself or from the loop, is caught and
turned into termwarn("IPU stats error ...", repeat=False), modelled as
an optional pair of the message and the repeat flag False. -/
def IPUStats.sample (st : IPUStats) (query : Except String (List Device)) :
    IPUStats × Option (String × Bool) :=
  match query with
  | Except.error e => (st, some ("IPU stats error " ++ e, false))
  | Except.ok devices =>
    match sampleDevices devices st [] with
    | Except.error r => (r.1, some ("IPU stats error " ++ r.2, false))
    | Except.ok r => ({ r.1 with samples := r.1.samples ++ [r.2] }, none)

/-- IPUStats.clear (lines 117 to 118). -/
def IPUStats.clear (st : IPUStats) : IPUStats :=
  { st with samples := [] }

/-- The floor of a rational, computed from its reduced numerator and
denominator so that it evaluates by kernel reduction. -/
def ratFloor (q : ℚ) : ℤ :=
  Int.fdiv q.num (q.den : ℤ)

/-- Round half to even, the rounding Python round() applies. -/
def roundHalfEven (q : ℚ) : ℤ :=
  let f := ratFloor q
  let r := q - (f : ℚ)
  if r < 1 / 2 then f
  else if 1 / 2 < r then f + 1
  else if f % 2 = 0 then f else f + 1

/-- Python round(x, 2) on exact rationals. -/
def round2 (q : ℚ) : ℚ :=
  (roundHalfEven (q * 100) : ℚ) / 100

/-- The buffered values of one key: s[key] for every sample that holds
the key. -/
def keyValues (samples : List Sample) (key : String) : List ℚ :=
  samples.filterMap (fun s => dget s key)

/-- IPUStats.serialize (lines 120 to 128): empty when no samples are
buffered, else one aggregate per key of the first sample, the mean of
that key over the samples holding it, rounded to 2 decimals. -/
def IPUStats.serialize (st : IPUStats) : Sample :=
  match st.samples with
  | [] => []
  | s0 :: _ =>
    (dkeys s0).foldl
      (fun stats key =>
        let vals := keyValues st.samples key
        dset stats key (round2 (vals.sum / (vals.length : ℚ))))
      []

/-! ## The transport security toggle -/

/-- ASCII lowercasing of one character, as Python str.lower acts on the
letters the flag can contain. -/
def lowerChar (c : Char) : Char :=
  if 65 ≤ c.toNat && c.toNat ≤ 90 then Char.ofNat (c.toNat + 32) else c

/-- Python str.lower on the flag value. -/
def pyLower (s : String) : String :=
  String.mk (s.data.map lowerChar)

/-- Modelled from the spec: the implementation of wandb.env.ssl_disabled
is not among the source files of this repository (only its test,
src/tests/unit_tests/test_ssl.py, is).  Per the spec, the flag disables
certificate verification exactly when the environment value is the
case-insensitive string "true"; every other value, the empty string
included, and an absent variable report False. -/
def ssl_disabled (env : Option String) : Bool :=
  match env with
  | none => false
  | some v => pyLower v == "true"

/-! ## Concrete fixtures used by witnesses -/

/-- A started process worker, as a launched backend records it. -/
def procWorker : Worker :=
  { isThread := false, daemon := false, name := "wandb_internal", started := true,
    pid := some 7, kwSettings := [("_log_level", SVal.vInt 10)],
    kwRecordQ := 0, kwResultQ := 1 }

/-- A backend handle in the launched state. -/
def launchedBackend : Backend :=
  { done := false, record_q := some 0, result_q := some 1,
    wandb_process := some procWorker, interface := some (0, 1),
    internal_pid := some 7 }

/-! ## Teardown lemmas -/

/-- One teardown call against a handle whose done flag is already set
leaves the handle untouched and performs no queue operation. -/
theorem runCall_done (c : TeardownCall) (b : Backend) (hd : b.done = true) :
    (runCall c b).1 = b ∧ (runCall c b).2.countP isQueueClose = 0 := by
  cases c with
  | callCleanup => simp [runCall, Backend.cleanup, hd]
  | callAbort =>
    cases hw : b.wandb_process with
    | none => simp [runCall, Backend.abort, hw]
    | some w =>
      by_cases ht : w.canTerminate = true
      · simp [runCall, Backend.abort, hw, ht, Backend.cleanup, hd, isQueueClose]
      · simp [runCall, Backend.abort, hw, ht]

/-- Any sequence of teardown calls against a handle whose done flag is
already set leaves the handle untouched and performs no queue
operation. -/
theorem runCalls_done (cs : List TeardownCall) :
    ∀ (b : Backend), b.done = true →
      (runCalls cs b).1 = b ∧ (runCalls cs b).2.countP isQueueClose = 0 := by
  induction cs with
  | nil => intro b _; simp [runCalls]
  | cons c cs ih =>
    intro b hd
    have h1 := (runCall_done c b hd).1
    have h2 := (runCall_done c b hd).2
    have h3 := ih (runCall c b).1 (by rw [h1]; exact hd)
    refine ⟨?_, ?_⟩
    · show (runCalls cs (runCall c b).1).1 = b
      rw [h3.1, h1]
    · show ((runCall c b).2 ++ (runCalls cs (runCall c b).1).2).countP isQueueClose = 0
      rw [List.countP_append, h2, h3.2]

/-- A trace with no queue close operations closes neither queue. -/
theorem count_close_of_countP_zero {evs : List TeardownEv}
    (h : evs.countP isQueueClose = 0) :
    evs.count TeardownEv.closeRecordQ = 0 ∧ evs.count TeardownEv.closeResultQ = 0 := by
  rw [List.countP_eq_zero] at h
  refine ⟨List.count_eq_zero.mpr ?_, List.count_eq_zero.mpr ?_⟩
  · intro hmem
    have h2 := h _ hmem
    simp [isQueueClose] at h2
  · intro hmem
    have h2 := h _ hmem
    simp [isQueueClose] at h2

/-- Unfolding one step of a call sequence. -/
theorem runCalls_cons_eq (c : TeardownCall) (cs : List TeardownCall) (b : Backend) :
    runCalls (c :: cs) b =
      ((runCalls cs (runCall c b).1).1,
       (runCall c b).2 ++ (runCalls cs (runCall c b).1).2) := rfl

/-- A call that neither changes the handle nor performs an operation
drops out of the sequence. -/
theorem runCalls_cons_noop (c : TeardownCall) (cs : List TeardownCall) (b : Backend)
    (hcall : runCall c b = (b, [])) :
    runCalls (c :: cs) b = runCalls cs b := by
  rw [runCalls_cons_eq, hcall]
  simp

/-- From a launched handle, a call sequence that completes teardown
closes each queue exactly once, and one that never completes teardown
closes no queue. -/
theorem runCalls_from_undone (cs : List TeardownCall) :
    ∀ (b : Backend), b.done = false →
      ((runCalls cs b).1.done = true →
        (runCalls cs b).2.count TeardownEv.closeRecordQ = 1 ∧
        (runCalls cs b).2.count TeardownEv.closeResultQ = 1) ∧
      ((runCalls cs b).1.done = false →
        (runCalls cs b).2.countP isQueueClose = 0) := by
  induction cs with
  | nil =>
    intro b hd
    constructor
    · intro h
      rw [show (runCalls [] b).1 = b from rfl, hd] at h
      cases h
    · intro _
      rfl
  | cons c cs ih =>
    intro b hd
    by_cases hnoop : runCall c b = (b, [])
    · rw [runCalls_cons_noop c cs b hnoop]
      exact ih b hd
    · obtain ⟨evs0, hcall, hc1, hc2⟩ :
          ∃ evs0, runCall c b = ({ b with done := true }, evs0) ∧
            evs0.count TeardownEv.closeRecordQ = 1 ∧
            evs0.count TeardownEv.closeResultQ = 1 := by
        cases c with
        | callCleanup =>
          refine ⟨[TeardownEv.joinInterface, TeardownEv.joinWorker,
                   TeardownEv.closeRecordQ, TeardownEv.closeResultQ],
                  ?_, by decide, by decide⟩
          simp [runCall, Backend.cleanup, hd]
        | callAbort =>
          cases hw : b.wandb_process with
          | none => exact absurd (by simp [runCall, Backend.abort, hw]) hnoop
          | some w =>
            by_cases ht : w.canTerminate = true
            · refine ⟨[TeardownEv.terminateWorker, TeardownEv.joinInterface,
                       TeardownEv.joinWorker, TeardownEv.closeRecordQ,
                       TeardownEv.closeResultQ],
                      ?_, by decide, by decide⟩
              simp [runCall, Backend.abort, hw, ht, Backend.cleanup, hd]
            · exact absurd (by simp [runCall, Backend.abort, hw, ht]) hnoop
      have hrest := runCalls_done cs { b with done := true } rfl
      have hzero := count_close_of_countP_zero hrest.2
      have hst : (runCalls (c :: cs) b).1 = { b with done := true } := by
        rw [runCalls_cons_eq, hcall]
        exact hrest.1
      have hevs : (runCalls (c :: cs) b).2 =
          evs0 ++ (runCalls cs { b with done := true }).2 := by
        rw [runCalls_cons_eq, hcall]
      constructor
      · intro _
        rw [hevs, List.count_append, List.count_append, hc1, hc2, hzero.1, hzero.2]
        exact ⟨rfl, rfl⟩
      · intro hfin
        rw [hst] at hfin
        simp at hfin

/-- C1: for every Backend handle, over any sequence of cleanup and abort
calls starting from a launched (not yet done) handle, a sequence that
completes teardown closes each of the two queues exactly once, a
sequence that never completes teardown closes none, and once the done
flag is set every further cleanup or abort call leaves the handle
unchanged and performs no queue operation, so the flag is one way. -/
theorem backend_teardown_close_once (b : Backend) (cs : List TeardownCall)
    (hd : b.done = false) :
    ((runCalls cs b).1.done = true →
      (runCalls cs b).2.count TeardownEv.closeRecordQ = 1 ∧
      (runCalls cs b).2.count TeardownEv.closeResultQ = 1) ∧
    ((runCalls cs b).1.done = false →
      (runCalls cs b).2.countP isQueueClose = 0) ∧
    (∀ (cs2 : List TeardownCall) (b2 : Backend), b2.done = true →
      (runCalls cs2 b2).1 = b2 ∧ (runCalls cs2 b2).2.countP isQueueClose = 0) :=
  ⟨(runCalls_from_undone cs b hd).1,
   (runCalls_from_undone cs b hd).2,
   fun cs2 b2 hb2 => runCalls_done cs2 b2 hb2⟩

/-- Witness for C1 at a concrete launched handle and the concrete call
sequence abort, cleanup, abort. -/
theorem backend_teardown_close_once_witness :
    launchedBackend.done = false ∧
    (((runCalls [TeardownCall.callAbort, TeardownCall.callCleanup,
                 TeardownCall.callAbort] launchedBackend).1.done = true →
      (runCalls [TeardownCall.callAbort, TeardownCall.callCleanup,
                 TeardownCall.callAbort] launchedBackend).2.count TeardownEv.closeRecordQ = 1 ∧
      (runCalls [TeardownCall.callAbort, TeardownCall.callCleanup,
                 TeardownCall.callAbort] launchedBackend).2.count TeardownEv.closeResultQ = 1) ∧
    ((runCalls [TeardownCall.callAbort, TeardownCall.callCleanup,
                TeardownCall.callAbort] launchedBackend).1.done = false →
      (runCalls [TeardownCall.callAbort, TeardownCall.callCleanup,
                 TeardownCall.callAbort] launchedBackend).2.countP isQueueClose = 0) ∧
    (∀ (cs2 : List TeardownCall) (b2 : Backend), b2.done = true →
      (runCalls cs2 b2).1 = b2 ∧ (runCalls cs2 b2).2.countP isQueueClose = 0)) :=
  ⟨rfl, backend_teardown_close_once launchedBackend
    [TeardownCall.callAbort, TeardownCall.callCleanup, TeardownCall.callAbort] rfl⟩

/-- C2: a first cleanup call on a launched handle sets the done flag and
performs exactly these steps in this order: join the sender interface,
join the worker, close the record queue, close the result queue. -/
theorem cleanup_join_then_close (b : Backend) (hd : b.done = false) :
    Backend.cleanup b =
      ({ b with done := true },
       [TeardownEv.joinInterface, TeardownEv.joinWorker,
        TeardownEv.closeRecordQ, TeardownEv.closeResultQ]) := by
  simp [Backend.cleanup, hd]

/-- Witness for C2 at a concrete launched handle. -/
theorem cleanup_join_then_close_witness :
    launchedBackend.done = false ∧
    Backend.cleanup launchedBackend =
      ({ launchedBackend with done := true },
       [TeardownEv.joinInterface, TeardownEv.joinWorker,
        TeardownEv.closeRecordQ, TeardownEv.closeResultQ]) :=
  ⟨rfl, cleanup_join_then_close launchedBackend rfl⟩

/-! ## Launch lemmas -/

/-- A faultless ensure_launched call returns the fully launched handle
and the restored entry module. -/
theorem ensure_launched_nofault_eq (b : Backend) (m : MainModule) (s0 : Option Settings)
    (ll : Option Int) (osPid : Nat) :
    Backend.ensure_launched b m s0 ll osPid LaunchFault.nofault =
      Except.ok
        ({ b with
            record_q := some 0
            result_q := some 1
            wandb_process := some (startWorker (buildWorker (prepareSettings s0 ll) 0 1) osPid)
            internal_pid := (startWorker (buildWorker (prepareSettings s0 ll) 0 1) osPid).pid
            interface := some (0, 1) },
         shimRestore (shimPatch m).1 (shimPatch m).2.1 (shimPatch m).2.2) := rfl

/-- A failing record queue allocation leaves the handle as it was. -/
theorem ensure_launched_recordQAlloc_eq (b : Backend) (m : MainModule) (s0 : Option Settings)
    (ll : Option Int) (osPid : Nat) :
    Backend.ensure_launched b m s0 ll osPid LaunchFault.recordQAlloc =
      Except.error (b, m) := rfl

/-- A failing result queue allocation leaves the record queue recorded on
the handle. -/
theorem ensure_launched_resultQAlloc_eq (b : Backend) (m : MainModule) (s0 : Option Settings)
    (ll : Option Int) (osPid : Nat) :
    Backend.ensure_launched b m s0 ll osPid LaunchFault.resultQAlloc =
      Except.error ({ b with record_q := some 0 }, m) := rfl

/-- A failing worker construction leaves both queues recorded. -/
theorem ensure_launched_processCreate_eq (b : Backend) (m : MainModule) (s0 : Option Settings)
    (ll : Option Int) (osPid : Nat) :
    Backend.ensure_launched b m s0 ll osPid LaunchFault.processCreate =
      Except.error
        ({ b with
            record_q := some 0
            result_q := some 1 }, m) := rfl

/-- A failing start call leaves queues and worker recorded and, crucially,
leaves the entry module in its patched state: the restore code after the
start call is never reached, there being no try or finally around it. -/
theorem ensure_launched_startFail_eq (b : Backend) (m : MainModule) (s0 : Option Settings)
    (ll : Option Int) (osPid : Nat) :
    Backend.ensure_launched b m s0 ll osPid LaunchFault.startFail =
      Except.error
        ({ b with
            record_q := some 0
            result_q := some 1
            wandb_process := some (buildWorker (prepareSettings s0 ll) 0 1) },
         (shimPatch m).1) := rfl

/-- Patch followed by restore gives the original module back, provided
the saved attribute is not the empty string (the restore guards are
Python truthiness tests). -/
theorem shimRestore_shimPatch (m : MainModule)
    (hn : mainModName m ≠ some "")
    (hp : mainModName m = none → m.file ≠ some "") :
    shimRestore (shimPatch m).1 (shimPatch m).2.1 (shimPatch m).2.2 = m := by
  cases m with
  | mk sp fl =>
    cases sp with
    | none =>
      cases fl with
      | none => rfl
      | some p =>
        have hp2 : p ≠ "" := by
          intro h
          exact hp rfl (by rw [h])
        simp [shimPatch, mainModName, shimRestore, optStrTruthy, hp2]
    | some n =>
      cases n with
      | none =>
        cases fl with
        | none => rfl
        | some p =>
          have hp2 : p ≠ "" := by
            intro h
            exact hp rfl (by rw [h])
          simp [shimPatch, mainModName, shimRestore, optStrTruthy, hp2]
      | some nm =>
        have hn2 : nm ≠ "" := by
          intro h
          exact hn (by simp [mainModName, h])
        simp [shimPatch, mainModName, shimRestore, optStrTruthy, hn2]

/-- An entry module whose spec name is a normal module name. -/
def mainModTrainer : MainModule :=
  { spec := some (some "trainer"), file := none }

/-- An entry module with neither a spec nor a file attribute. -/
def mainModPlain : MainModule :=
  { spec := none, file := none }

/-- C3 counterexample: when the start call raises, ensure_launched
propagates the exception with the entry module still bearing the
sentinel name wandb.mpmain, not its original identity, because the
restore code sits after the start call with no try or finally. -/
theorem ensure_launched_restore_cex :
    (launchError (Backend.ensure_launched Backend.init mainModTrainer none none 7
        LaunchFault.startFail)).map (fun r => r.2) =
      some { spec := some (some "wandb.mpmain"), file := none } ∧
    ({ spec := some (some "wandb.mpmain"), file := none } : MainModule) ≠ mainModTrainer := by
  exact ⟨rfl, by decide⟩

/-- C3 as amended: on the non-raising path ensure_launched restores the
entry module identity, provided the saved original attribute is not the
empty string (the restore is guarded by Python truthiness); when the
start call raises, the temporary identity is left in place. -/
theorem ensure_launched_restores_entry_module (b : Backend) (m : MainModule)
    (s0 : Option Settings) (ll : Option Int) (osPid : Nat)
    (hn : mainModName m ≠ some "")
    (hp : mainModName m = none → m.file ≠ some "") :
    (launchOk (Backend.ensure_launched b m s0 ll osPid LaunchFault.nofault)).map
        (fun r => r.2) = some m := by
  rw [ensure_launched_nofault_eq]
  show some (shimRestore (shimPatch m).1 (shimPatch m).2.1 (shimPatch m).2.2) = some m
  rw [shimRestore_shimPatch m hn hp]

/-- Witness for the amended C3 at a concrete entry module. -/
theorem ensure_launched_restores_entry_module_witness :
    (launchOk (Backend.ensure_launched Backend.init mainModTrainer none none 7
        LaunchFault.nofault)).map (fun r => r.2) = some mainModTrainer :=
  ensure_launched_restores_entry_module Backend.init mainModTrainer none none 7
    (by decide) (by decide)

/-- C4 counterexample: when the result queue allocation fails, the record
queue allocated one line earlier is already recorded on the handle, so
partial state does remain registered. -/
theorem ensure_launched_partial_state_cex :
    (launchError (Backend.ensure_launched Backend.init mainModPlain (some []) none 7
        LaunchFault.resultQAlloc)).map (fun r => r.1.record_q) = some (some 0) ∧
    (some 0 : Option Nat) ≠ none := by
  exact ⟨rfl, by decide⟩

/-- C4 as amended: a failure during queue allocation, worker construction
or the start call propagates synchronously as the error result, and the
handle is never registered as launched: its sender interface stays unset
and its done flag stays false; however, attributes assigned before the
failing step (an already allocated queue, an already constructed worker)
do remain on the handle. -/
theorem ensure_launched_failure_keeps_interface_unset (b : Backend) (m : MainModule)
    (s0 : Option Settings) (ll : Option Int) (osPid : Nat) (fault : LaunchFault)
    (hf : fault ≠ LaunchFault.nofault)
    (hi : b.interface = none) (hd : b.done = false) :
    ∃ r, Backend.ensure_launched b m s0 ll osPid fault = Except.error r ∧
      r.1.interface = none ∧ r.1.done = false := by
  cases fault with
  | nofault => exact absurd rfl hf
  | recordQAlloc => exact ⟨(b, m), ensure_launched_recordQAlloc_eq b m s0 ll osPid, hi, hd⟩
  | resultQAlloc =>
    exact ⟨({ b with record_q := some 0 }, m),
      ensure_launched_resultQAlloc_eq b m s0 ll osPid, hi, hd⟩
  | processCreate =>
    exact ⟨_, ensure_launched_processCreate_eq b m s0 ll osPid, hi, hd⟩
  | startFail =>
    exact ⟨_, ensure_launched_startFail_eq b m s0 ll osPid, hi, hd⟩

/-- Witness for the amended C4 at a concrete failing launch. -/
theorem ensure_launched_failure_keeps_interface_unset_witness :
    LaunchFault.resultQAlloc ≠ LaunchFault.nofault ∧
    Backend.init.interface = none ∧ Backend.init.done = false ∧
    ∃ r, Backend.ensure_launched Backend.init mainModPlain (some []) none 7
        LaunchFault.resultQAlloc = Except.error r ∧
      r.1.interface = none ∧ r.1.done = false :=
  ⟨by decide, rfl, rfl,
   ensure_launched_failure_keeps_interface_unset Backend.init mainModPlain (some []) none 7
     LaunchFault.resultQAlloc (by decide) rfl rfl⟩

/-! ## Dictionary lemmas -/

/-- Lookup after assignment. -/
theorem dget_dset {α : Type} (s : List (String × α)) (k1 k : String) (v : α) :
    dget (dset s k1 v) k = if k1 = k then some v else dget s k := by
  induction s with
  | nil =>
    by_cases h : k1 = k <;> simp [dset, dget, h]
  | cons p ps ih =>
    by_cases h1 : p.1 = k1
    · by_cases h2 : k1 = k
      · simp [dset, dget, h1, h2]
      · have h3 : ¬ p.1 = k := by rw [h1]; exact h2
        simp [dset, dget, h1, h2, h3]
    · by_cases h3 : p.1 = k
      · have h2 : ¬ k1 = k := by
          intro h
          exact h1 (by rw [h, ← h3])
        simp [dset, dget, h1, h3, h2, Ne.symm h2]
      · simp [dset, dget, h1, h3, ih]

/-- Lookup after deletion. -/
theorem dget_ddel {α : Type} (s : List (String × α)) (k1 k : String) :
    dget (ddel s k1) k = if k1 = k then none else dget s k := by
  induction s with
  | nil => by_cases h : k1 = k <;> simp [ddel, dget, h]
  | cons p ps ih =>
    by_cases h1 : p.1 = k1
    · by_cases h2 : k1 = k
      · simp [ddel, dget, List.filter_cons, h1, h2] at ih ⊢
        simpa [ddel, h2] using ih
      · have h3 : ¬ p.1 = k := by rw [h1]; exact h2
        simp [ddel, List.filter_cons, h1] at ih ⊢
        simpa [ddel, dget, h3, h2] using ih
    · by_cases h3 : p.1 = k
      · have h2 : ¬ k1 = k := by
          intro h
          exact h1 (by rw [h, ← h3])
        simp [ddel, List.filter_cons, dget, h1, h3, h2, Ne.symm h1, Ne.symm h2]
      · simp [ddel, List.filter_cons, dget, h1, h3, Ne.symm h1] at ih ⊢
        simpa [ddel] using ih

/-- The prepared settings always carry the forced log level entry. -/
theorem dget_prepareSettings_log_level (s0 : Option Settings) (ll : Option Int) :
    dget (prepareSettings s0 ll) "_log_level" = some (SVal.vInt (pyLevelOrDebug ll)) := by
  rw [prepareSettings]
  rw [dget_ddel, if_neg (by decide), dget_dset, if_pos rfl]

/-- The prepared settings never carry the early logger entry. -/
theorem dcontains_prepareSettings_early (s0 : Option Settings) (ll : Option Int) :
    dcontains (prepareSettings s0 ll) "_early_logger" = false := by
  rw [dcontains, prepareSettings, dget_ddel, if_pos rfl]
  rfl

/-- Preparing the settings changes no key other than the log level and
the early logger. -/
theorem dget_prepareSettings_other (s0 : Option Settings) (ll : Option Int) (k : String)
    (h1 : k ≠ "_log_level") (h2 : k ≠ "_early_logger") :
    dget (prepareSettings s0 ll) k = dget (s0.getD []) k := by
  rw [prepareSettings, dget_ddel, if_neg (Ne.symm h2), dget_dset, if_neg (Ne.symm h1)]

/-- Starting a worker does not change the kwargs it was built with. -/
theorem startWorker_kwSettings (w : Worker) (p : Nat) :
    (startWorker w p).kwSettings = w.kwSettings := by
  by_cases h : w.isThread = true <;> simp [startWorker, h]

/-- The worker is always constructed with the prepared settings as its
settings kwarg, whichever process class is chosen. -/
theorem buildWorker_kwSettings (s : Settings) (rq rsq : Nat) :
    (buildWorker s rq rsq).kwSettings = s := by
  by_cases h : dget s "start_method" = some (SVal.vStr "thread") <;>
    simp [buildWorker, mkProcess, mkBackendThread, h]

/-- C5 counterexample: with the caller supplying log level 0 (the valid
level logging.NOTSET), the Python expression log_level or logging.DEBUG
discards it, and the worker receives _log_level 10 instead of the
caller-supplied 0. -/
theorem settings_log_level_zero_cex :
    ((launchOk (Backend.ensure_launched Backend.init mainModPlain (some []) (some 0) 7
        LaunchFault.nofault)).bind (fun r => r.1.wandb_process)).map Worker.kwSettings =
      some [("_log_level", SVal.vInt 10)] ∧
    SVal.vInt 10 ≠ SVal.vInt 0 := by
  exact ⟨rfl, by decide⟩

/-- C5 as amended: the settings handed to the worker target are exactly
the prepared settings; they never contain the _early_logger entry, and
their _log_level entry is the caller-supplied level when that level is
truthy (non-zero), else the default debug level 10 (this is also what a
caller-supplied level 0 becomes). -/
theorem worker_settings_sanitized (b : Backend) (m : MainModule) (s0 : Option Settings)
    (ll : Option Int) (osPid : Nat) :
    ((launchOk (Backend.ensure_launched b m s0 ll osPid LaunchFault.nofault)).bind
        (fun r => r.1.wandb_process)).map Worker.kwSettings =
      some (prepareSettings s0 ll) ∧
    dcontains (prepareSettings s0 ll) "_early_logger" = false ∧
    dget (prepareSettings s0 ll) "_log_level" = some (SVal.vInt (pyLevelOrDebug ll)) := by
  refine ⟨?_, dcontains_prepareSettings_early s0 ll, dget_prepareSettings_log_level s0 ll⟩
  rw [ensure_launched_nofault_eq]
  show some (startWorker (buildWorker (prepareSettings s0 ll) 0 1) osPid).kwSettings =
    some (prepareSettings s0 ll)
  rw [startWorker_kwSettings, buildWorker_kwSettings]

/-- With start_method thread, the worker is a BackendThread. -/
theorem buildWorker_thread (s : Settings) (rq rsq : Nat)
    (h : dget s "start_method" = some (SVal.vStr "thread")) :
    buildWorker s rq rsq = { mkBackendThread s rq rsq with name := "wandb_internal" } := by
  simp [buildWorker, h]

/-- With any other start_method, the worker is a separate process. -/
theorem buildWorker_process (s : Settings) (rq rsq : Nat)
    (h : dget s "start_method" ≠ some (SVal.vStr "thread")) :
    buildWorker s rq rsq = { mkProcess s rq rsq with name := "wandb_internal" } := by
  simp [buildWorker, h]

/-- C6: under a faultless launch with a positive operating system pid,
a configuration whose start_method is the string thread yields a daemon
thread worker whose pid is 0, recorded as internal pid 0; any other
start_method value, absence included, yields a separate process worker
whose recorded identity is the non-zero operating system pid. -/
theorem run_mode_selection (b : Backend) (m : MainModule) (s0 : Option Settings)
    (ll : Option Int) (osPid : Nat) (hp : 0 < osPid) :
    (dget (s0.getD []) "start_method" = some (SVal.vStr "thread") →
      ∃ wk : Worker,
        (launchOk (Backend.ensure_launched b m s0 ll osPid LaunchFault.nofault)).bind
            (fun r => r.1.wandb_process) = some wk ∧
        wk.isThread = true ∧ wk.daemon = true ∧ wk.pid = some 0 ∧
        (launchOk (Backend.ensure_launched b m s0 ll osPid LaunchFault.nofault)).map
            (fun r => r.1.internal_pid) = some (some 0)) ∧
    (dget (s0.getD []) "start_method" ≠ some (SVal.vStr "thread") →
      ∃ wk : Worker,
        (launchOk (Backend.ensure_launched b m s0 ll osPid LaunchFault.nofault)).bind
            (fun r => r.1.wandb_process) = some wk ∧
        wk.isThread = false ∧ wk.pid = some osPid ∧ osPid ≠ 0 ∧
        (launchOk (Backend.ensure_launched b m s0 ll osPid LaunchFault.nofault)).map
            (fun r => r.1.internal_pid) = some (some osPid)) := by
  constructor
  · intro hsm
    have hs : dget (prepareSettings s0 ll) "start_method" = some (SVal.vStr "thread") := by
      rw [dget_prepareSettings_other s0 ll _ (by decide) (by decide)]
      exact hsm
    refine ⟨startWorker (buildWorker (prepareSettings s0 ll) 0 1) osPid, ?_, ?_, ?_, ?_, ?_⟩
    · rw [ensure_launched_nofault_eq]
      rfl
    · rw [buildWorker_thread _ _ _ hs]
      simp [startWorker, mkBackendThread]
    · rw [buildWorker_thread _ _ _ hs]
      simp [startWorker, mkBackendThread]
    · rw [buildWorker_thread _ _ _ hs]
      simp [startWorker, mkBackendThread]
    · rw [ensure_launched_nofault_eq]
      show some (startWorker (buildWorker (prepareSettings s0 ll) 0 1) osPid).pid = _
      rw [buildWorker_thread _ _ _ hs]
      simp [startWorker, mkBackendThread]
  · intro hsm
    have hs : dget (prepareSettings s0 ll) "start_method" ≠ some (SVal.vStr "thread") := by
      rw [dget_prepareSettings_other s0 ll _ (by decide) (by decide)]
      exact hsm
    refine ⟨startWorker (buildWorker (prepareSettings s0 ll) 0 1) osPid, ?_, ?_, ?_,
            Nat.pos_iff_ne_zero.mp hp, ?_⟩
    · rw [ensure_launched_nofault_eq]
      rfl
    · rw [buildWorker_process _ _ _ hs]
      simp [startWorker, mkProcess]
    · rw [buildWorker_process _ _ _ hs]
      simp [startWorker, mkProcess]
    · rw [ensure_launched_nofault_eq]
      show some (startWorker (buildWorker (prepareSettings s0 ll) 0 1) osPid).pid = _
      rw [buildWorker_process _ _ _ hs]
      simp [startWorker, mkProcess]

/-- A concrete thread-mode configuration. -/
def threadSettings : Settings := [("start_method", SVal.vStr "thread")]

/-- Witness for C6 at a concrete thread-mode configuration and pid 7. -/
theorem run_mode_selection_witness :
    (0 : Nat) < 7 ∧
    ((dget ((some threadSettings).getD []) "start_method" = some (SVal.vStr "thread") →
      ∃ wk : Worker,
        (launchOk (Backend.ensure_launched Backend.init mainModPlain (some threadSettings)
            none 7 LaunchFault.nofault)).bind (fun r => r.1.wandb_process) = some wk ∧
        wk.isThread = true ∧ wk.daemon = true ∧ wk.pid = some 0 ∧
        (launchOk (Backend.ensure_launched Backend.init mainModPlain (some threadSettings)
            none 7 LaunchFault.nofault)).map (fun r => r.1.internal_pid) = some (some 0)) ∧
    (dget ((some threadSettings).getD []) "start_method" ≠ some (SVal.vStr "thread") →
      ∃ wk : Worker,
        (launchOk (Backend.ensure_launched Backend.init mainModPlain (some threadSettings)
            none 7 LaunchFault.nofault)).bind (fun r => r.1.wandb_process) = some wk ∧
        wk.isThread = false ∧ wk.pid = some 7 ∧ (7 : Nat) ≠ 0 ∧
        (launchOk (Backend.ensure_launched Backend.init mainModPlain (some threadSettings)
            none 7 LaunchFault.nofault)).map (fun r => r.1.internal_pid) = some (some 7))) :=
  ⟨by decide,
   run_mode_selection Backend.init mainModPlain (some threadSettings) none 7 (by decide)⟩

/-! ## Rounding and serialize lemmas -/

/-- Integer floor division by one changes nothing. -/
theorem int_fdiv_one (z : ℤ) : Int.fdiv z 1 = z := by
  rcases z with m | m
  · cases m <;> simp [Int.fdiv]
  · simp [Int.fdiv]

/-- The rational floor of an integer is that integer. -/
theorem ratFloor_intCast (z : ℤ) : ratFloor (z : ℚ) = z := by
  rw [ratFloor, Rat.num_intCast, Rat.den_intCast]
  exact int_fdiv_one z

/-- Rounding half to even fixes every integer. -/
theorem roundHalfEven_intCast (z : ℤ) : roundHalfEven (z : ℚ) = z := by
  simp [roundHalfEven, ratFloor_intCast]

/-- Looking one key up in the serialize fold: processed keys map to their
rounded mean, anything else falls through to the accumulator. -/
theorem dget_serialize_fold (samples : List Sample) (ks : List String)
    (stats : Sample) (k : String) :
    dget (ks.foldl
        (fun st key =>
          dset st key
            (round2 ((keyValues samples key).sum / ((keyValues samples key).length : ℚ))))
        stats) k =
      if k ∈ ks then
        some (round2 ((keyValues samples k).sum / ((keyValues samples k).length : ℚ)))
      else dget stats k := by
  induction ks generalizing stats with
  | nil => simp
  | cons k1 ks ih =>
    rw [List.foldl_cons, ih]
    by_cases h : k ∈ ks
    · simp [h]
    · by_cases h2 : k1 = k
      · subst h2
        simp [h, dget_dset]
      · simp [h, h2, dget_dset, Ne.symm h2]

/-- Looking one key up in the whole serialize result. -/
theorem dget_serialize (st : IPUStats) (s0 : Sample) (rest : List Sample) (k : String)
    (h : st.samples = s0 :: rest) :
    dget st.serialize k =
      if k ∈ dkeys s0 then
        some (round2 ((keyValues st.samples k).sum / ((keyValues st.samples k).length : ℚ)))
      else none := by
  rw [show st.serialize =
      (dkeys s0).foldl
        (fun stats key =>
          dset stats key
            (round2 ((keyValues st.samples key).sum / ((keyValues st.samples key).length : ℚ))))
        [] from by rw [IPUStats.serialize, h]]
  rw [dget_serialize_fold]
  rfl

/-- The buffered values of a key are its lookups over exactly the
samples that contain the key. -/
theorem keyValues_filter (samples : List Sample) (k : String) :
    keyValues samples k =
      (samples.filter (fun s => dcontains s k)).filterMap (fun s => dget s k) := by
  induction samples with
  | nil => rfl
  | cons s ss ih =>
    rcases hv : dget s k with _ | v
    · have hc : dcontains s k = false := by simp [dcontains, hv]
      simp [keyValues, List.filterMap_cons, List.filter_cons, hv, hc] at ih ⊢
      exact ih
    · have hc : dcontains s k = true := by simp [dcontains, hv]
      simp [keyValues, List.filterMap_cons, List.filter_cons, hv, hc] at ih ⊢
      exact ih

/-- One value is collected per sample that contains the key. -/
theorem keyValues_length_filter (samples : List Sample) (k : String) :
    (keyValues samples k).length =
      (samples.filter (fun s => dcontains s k)).length := by
  induction samples with
  | nil => rfl
  | cons s ss ih =>
    rcases hv : dget s k with _ | v
    · have hc : dcontains s k = false := by simp [dcontains, hv]
      simp [keyValues, List.filterMap_cons, List.filter_cons, hv, hc] at ih ⊢
      exact ih
    · have hc : dcontains s k = true := by simp [dcontains, hv]
      simp [keyValues, List.filterMap_cons, List.filter_cons, hv, hc] at ih ⊢
      exact ih

/-- C7: serialize returns the empty mapping when no samples are buffered;
every entry of its result is the arithmetic mean, rounded to 2 decimals,
of that key over its buffered values; and on the three buffered samples
x.temp 10, 20 and 30 it returns exactly x.temp 20. -/
theorem serialize_mean (st : IPUStats) :
    (st.samples = [] → st.serialize = []) ∧
    (∀ k v, dget st.serialize k = some v →
      v = round2 ((keyValues st.samples k).sum / ((keyValues st.samples k).length : ℚ))) ∧
    IPUStats.serialize
        { pid := 0,
          samples := [[("x.temp (C)", 10)], [("x.temp (C)", 20)], [("x.temp (C)", 30)]],
          devicesCalled := [] } =
      [("x.temp (C)", 20)] := by
  refine ⟨?_, ?_, ?_⟩
  · intro h
    rw [IPUStats.serialize, h]
  · intro k v hv
    rcases hs : st.samples with _ | ⟨s0, rest⟩
    · rw [show st.serialize = [] from by rw [IPUStats.serialize, hs]] at hv
      cases hv
    · rw [dget_serialize st s0 rest k hs] at hv
      by_cases hk : k ∈ dkeys s0
      · rw [if_pos hk, hs] at hv
        exact (Option.some.inj hv).symm
      · rw [if_neg hk] at hv
        cases hv
  · have hkv : keyValues
        [[("x.temp (C)", 10)], [("x.temp (C)", 20)], [("x.temp (C)", 30)]]
        "x.temp (C)" = [10, 20, 30] := by
      simp [keyValues, dget]
    have hmean : (([10, 20, 30] : List ℚ).sum / (([10, 20, 30] : List ℚ).length : ℚ))
        = 20 := by
      norm_num [List.sum_cons, List.sum_nil, List.length_cons, List.length_nil]
    have hr : round2 (20 : ℚ) = 20 := by
      have h2000 : ((20 : ℚ) * 100) = ((2000 : ℤ) : ℚ) := by norm_num
      rw [round2, h2000, roundHalfEven_intCast]
      norm_num
    rw [IPUStats.serialize]
    show (dkeys [("x.temp (C)", (10 : ℚ))]).foldl _ [] = _
    rw [show dkeys [("x.temp (C)", (10 : ℚ))] = ["x.temp (C)"] from rfl,
        List.foldl_cons, List.foldl_nil, hkv]
    show dset [] "x.temp (C)"
        (round2 (([10, 20, 30] : List ℚ).sum / (([10, 20, 30] : List ℚ).length : ℚ))) = _
    rw [hmean, hr]
    rfl

/-- C10: for a nonempty buffer, serialize aggregates exactly the keys of
the first buffered sample: a key absent from the first sample is absent
from the result even when later samples hold it, and a key of the first
sample is averaged over exactly the samples that contain it. -/
theorem serialize_first_sample_keys (st : IPUStats) (s0 : Sample) (rest : List Sample)
    (h : st.samples = s0 :: rest) :
    (∀ k, k ∉ dkeys s0 → dget st.serialize k = none) ∧
    (∀ k, k ∈ dkeys s0 →
      dget st.serialize k =
        some (round2
          ((((s0 :: rest).filter (fun s => dcontains s k)).filterMap
              (fun s => dget s k)).sum /
           ((((s0 :: rest).filter (fun s => dcontains s k)).length : Nat) : ℚ)))) := by
  constructor
  · intro k hk
    rw [dget_serialize st s0 rest k h, if_neg hk]
  · intro k hk
    rw [dget_serialize st s0 rest k h, if_pos hk, h, keyValues_length_filter,
        keyValues_filter]

/-- A concrete buffer whose second sample has a key the first lacks. -/
def twoSampleStats : IPUStats :=
  { pid := 0,
    samples := [[("a", 1)], [("a", 2), ("b", 5)]],
    devicesCalled := [] }

/-- The first sample of the concrete buffer. -/
def wSample0 : Sample := [("a", 1)]

/-- The remaining samples of the concrete buffer. -/
def wRest : List Sample := [[("a", 2), ("b", 5)]]

/-- Witness for C10 at a concrete two sample buffer. -/
theorem serialize_first_sample_keys_witness :
    (∀ k, k ∉ dkeys wSample0 → dget twoSampleStats.serialize k = none) ∧
    (∀ k, k ∈ dkeys wSample0 →
      dget twoSampleStats.serialize k =
        some (round2
          ((((wSample0 :: wRest).filter (fun s => dcontains s k)).filterMap
              (fun s => dget s k)).sum /
           ((((wSample0 :: wRest).filter (fun s => dcontains s k)).length : Nat) : ℚ)))) :=
  serialize_first_sample_keys twoSampleStats wSample0 wRest rfl

/-- The device loop only grows the set of seen device ids: the buffered
samples deque is untouched whether the loop returns or raises. -/
theorem sampleDevices_samples (ds : List Device) :
    ∀ (st : IPUStats) (stats : Sample),
      (devState (sampleDevices ds st stats)).samples = st.samples := by
  induction ds with
  | nil => intro st stats; rfl
  | cons d ds ih =>
    intro st stats
    rcases hpid : dget d "user process id" with _ | pstr
    · simpa [sampleDevices, hpid] using ih st stats
    · rcases hint : pyInt? pstr with _ | pval
      · simp [sampleDevices, hpid, hint, devState]
      · by_cases hne : pval = st.pid
        · rcases hid : dget d "id" with _ | i
          · simpa [sampleDevices, hpid, hint, hne, hid] using
              ih st (processDeviceMetrics none true d stats)
          · simpa [sampleDevices, hpid, hint, hne, hid] using
              ih { st with devicesCalled :=
                    if st.devicesCalled.contains i then st.devicesCalled
                    else st.devicesCalled ++ [i] }
                 (processDeviceMetrics (some i) (!st.devicesCalled.contains i) d stats)
        · simpa [sampleDevices, hpid, hint, hne] using ih st stats

/-- C8: sample never raises to its caller: for every device query
result, raising ones included, it returns normally; on success exactly
one new sample is appended and no warning is emitted, and on any
internal error the buffered samples are unchanged and the error is
downgraded to an IPU stats error warning with the repeat flag False,
the rate limit of termwarn. -/
theorem ipu_sample_never_raises (st : IPUStats) (q : Except String (List Device)) :
    ((IPUStats.sample st q).2 = none ∧
      ∃ s, (IPUStats.sample st q).1.samples = st.samples ++ [s]) ∨
    (∃ e, (IPUStats.sample st q).2 = some ("IPU stats error " ++ e, false) ∧
      (IPUStats.sample st q).1.samples = st.samples) := by
  rcases q with e | devices
  · right
    exact ⟨e, rfl, rfl⟩
  · rcases hsd : sampleDevices devices st [] with r | r
    · right
      refine ⟨r.2, ?_, ?_⟩
      · simp [IPUStats.sample, hsd]
      · have hpres := sampleDevices_samples devices st []
        rw [hsd] at hpres
        simpa [IPUStats.sample, hsd, devState] using hpres
    · left
      constructor
      · simp [IPUStats.sample, hsd]
      · refine ⟨r.2, ?_⟩
        have hpres := sampleDevices_samples devices st []
        rw [hsd] at hpres
        simp only [devState] at hpres
        simp [IPUStats.sample, hsd, hpres]

/-- C9: modelled from the spec, certificate verification is reported
disabled exactly when the flag value lowercases to the string true;
an absent variable, the empty string and the string false all report
False, and the match is case-insensitive. -/
theorem ssl_disabled_spec :
    (∀ v : Option String, ssl_disabled v = true ↔ ∃ s, v = some s ∧ pyLower s = "true") ∧
    ssl_disabled none = false ∧
    ssl_disabled (some "") = false ∧
    ssl_disabled (some "false") = false ∧
    ssl_disabled (some "true") = true ∧
    ssl_disabled (some "TRUE") = true ∧
    ssl_disabled (some "True") = true := by
  refine ⟨?_, rfl, by decide, by decide, by decide, by decide, by decide⟩
  intro v
  rcases v with _ | s
  · simp [ssl_disabled]
  · simp [ssl_disabled]
